import Mathlib

/- Shallow embedding of the `retry_reloaded` package of the chrisK824/retry
repository: the backoff strategies (src/retry_reloaded/backoff.py), the retry
decorator and its wrapper loop (src/retry_reloaded/retry.py), the positional
arity of the `_validate_args` call (src/retry_reloaded/_validate.py), and the
side effects performed when a terminal exception is constructed
(src/retry_reloaded/_exceptions.py).

Python float quantities (times, durations, delays) are modelled as exact
integers: the code combines them only with `+`, `*`, `min` and order
comparisons, and every scenario of the specification is integer valued.
Calls to `random.uniform(a, b)` are modelled by oracle functions
`rng : ℤ → ℤ → ℤ` supplied as explicit parameters; a family `rngs : ℕ → ...`
supplies one oracle per loop iteration or per delay read. -/

namespace RetryReloaded

/-- Errors raised by construction-time validation in backoff.py
(`TypeError` / `ValueError`). -/
inductive ConfigError where
  | typeError (msg : String)
  | valueError (msg : String)
  deriving DecidableEq, Repr

/-- Variant-specific data of the four BackOff subclasses of backoff.py.
`linear` carries `_step` and `_max`, `randomUniform` carries `_min_delay` and
`_max_delay`, `exponential` carries `_base` and `_max`. -/
inductive BackOffKind where
  | fixed
  | linear (step : ℤ) (max : Option ℤ)
  | randomUniform (min_delay : ℤ) (max_delay : ℤ)
  | exponential (base : ℤ) (max : Option ℤ)
  deriving DecidableEq, Repr

/-- State of a BackOff object: the attributes set by `BackOff.__init__`
(`_base_delay`, `_delay`, `_jitter`, `_round`) plus the subclass data. -/
structure BackOff where
  base_delay : ℤ
  jitter : Option (ℤ × ℤ)
  _delay : ℤ
  round : ℕ
  kind : BackOffKind
  deriving DecidableEq, Repr

/-- `BackOff._validate_base_delay` (backoff.py:30-51).  The `isinstance`
number check cannot fail in this embedding, so only the sign check remains. -/
def _validate_base_delay (base_delay : ℤ) : Except ConfigError ℤ :=
  if base_delay < 0 then
    Except.error (ConfigError.valueError "Base delay must be a positive number.")
  else
    Except.ok base_delay

/-- `BackOff._validate_jitter` (backoff.py:53-83): both bounds non-negative
and in sorted order. -/
def _validate_jitter (jitter : Option (ℤ × ℤ)) : Except ConfigError (Option (ℤ × ℤ)) :=
  match jitter with
  | none => Except.ok none
  | some (min_val, max_val) =>
    if min_val < 0 ∨ max_val < 0 then
      Except.error (ConfigError.valueError "Jitter values must be positive numbers.")
    else if min_val > max_val then
      Except.error (ConfigError.valueError "Jitter values must be in sorted order.")
    else
      Except.ok (some (min_val, max_val))

/-- `BackOff._validate_step` (backoff.py:85-109): `none` falls back to the
base delay, a given step must be non-negative. -/
def _validate_step (base_delay : ℤ) (step : Option ℤ) : Except ConfigError ℤ :=
  match step with
  | none => Except.ok base_delay
  | some s =>
    if s < 0 then Except.error (ConfigError.valueError "Step must be a positive number.")
    else Except.ok s

/-- `BackOff._validate_max` (backoff.py:111-134): a given max must be at
least the base delay. -/
def _validate_max (base_delay : ℤ) (max? : Option ℤ) : Except ConfigError (Option ℤ) :=
  match max? with
  | none => Except.ok none
  | some m =>
    if m < base_delay then
      Except.error (ConfigError.valueError "Max must be a value equal to or greater than the base delay.")
    else Except.ok (some m)

/-- `BackOff.__init__` (backoff.py:10-28): validates base delay and jitter and
returns the initial attribute values `(_base_delay, _jitter)`; the constructor
also sets `_delay = base_delay` and `_round = 0`. -/
def BackOff.initFields (base_delay : ℤ) (jitter : Option (ℤ × ℤ)) :
    Except ConfigError (ℤ × Option (ℤ × ℤ)) :=
  match _validate_base_delay base_delay with
  | Except.error e => Except.error e
  | Except.ok bd =>
    match _validate_jitter jitter with
    | Except.error e => Except.error e
    | Except.ok j => Except.ok (bd, j)

/-- `FixedBackOff(base_delay, jitter)` construction. -/
def FixedBackOff.make (base_delay : ℤ) (jitter : Option (ℤ × ℤ)) :
    Except ConfigError BackOff :=
  match BackOff.initFields base_delay jitter with
  | Except.error e => Except.error e
  | Except.ok p =>
    Except.ok { base_delay := p.1, jitter := p.2, _delay := base_delay, round := 0,
                kind := BackOffKind.fixed }

/-- `LinearBackOff(base_delay, step, jitter, max)` construction
(backoff.py:179-193): base init, then `_validate_step`, then `_validate_max`. -/
def LinearBackOff.make (base_delay : ℤ) (step : Option ℤ) (jitter : Option (ℤ × ℤ))
    (max? : Option ℤ) : Except ConfigError BackOff :=
  match BackOff.initFields base_delay jitter with
  | Except.error e => Except.error e
  | Except.ok p =>
    match _validate_step p.1 step with
    | Except.error e => Except.error e
    | Except.ok s =>
      match _validate_max p.1 max? with
      | Except.error e => Except.error e
      | Except.ok m =>
        Except.ok { base_delay := p.1, jitter := p.2, _delay := base_delay, round := 0,
                    kind := BackOffKind.linear s m }

/-- `RandomUniformBackOff(base_delay, min_delay, max_delay)` construction
(backoff.py:211-222).  Note: `min_delay` and `max_delay` are stored without
any validation, exactly as in the source. -/
def RandomUniformBackOff.make (base_delay : ℤ) (min_delay : ℤ) (max_delay : ℤ) :
    Except ConfigError BackOff :=
  match BackOff.initFields base_delay none with
  | Except.error e => Except.error e
  | Except.ok p =>
    Except.ok { base_delay := p.1, jitter := p.2, _delay := base_delay, round := 0,
                kind := BackOffKind.randomUniform min_delay max_delay }

/-- `ExponentialBackOff(base_delay, base, jitter, max)` construction
(backoff.py:239-253): `base` defaults to `DEFAULT_BASE = 2` and is stored
without any validation, exactly as in the source. -/
def ExponentialBackOff.make (base_delay : ℤ) (base : Option ℤ) (jitter : Option (ℤ × ℤ))
    (max? : Option ℤ) : Except ConfigError BackOff :=
  match BackOff.initFields base_delay jitter with
  | Except.error e => Except.error e
  | Except.ok p =>
    match _validate_max p.1 max? with
    | Except.error e => Except.error e
    | Except.ok m =>
      Except.ok { base_delay := p.1, jitter := p.2, _delay := base_delay, round := 0,
                  kind := BackOffKind.exponential (base.getD 2) m }

/-- `_calculate_next_delay` of the four subclasses (backoff.py:165-172,
195-204, 224-230, 255-264).  `rng lo hi` models the value returned by the
call `random.uniform(lo, hi)` performed in that round, if any. -/
def _calculate_next_delay (rng : ℤ → ℤ → ℤ) (b : BackOff) : BackOff :=
  match b.kind with
  | BackOffKind.fixed =>
    let d := b.base_delay
    let d := if 0 < b.round ∧ b.jitter.isSome then
               d + rng (b.jitter.getD (0, 0)).1 (b.jitter.getD (0, 0)).2
             else d
    { b with _delay := d, round := b.round + 1 }
  | BackOffKind.linear step max? =>
    let d := b.base_delay + step * (b.round : ℤ)
    let d := if 0 < b.round ∧ b.jitter.isSome then
               d + rng (b.jitter.getD (0, 0)).1 (b.jitter.getD (0, 0)).2
             else d
    let d := match max? with
             | some m => min d m
             | none => d
    { b with _delay := d, round := b.round + 1 }
  | BackOffKind.randomUniform min_delay max_delay =>
    if 0 < b.round then
      { b with _delay := rng min_delay max_delay, round := b.round + 1 }
    else
      { b with round := b.round + 1 }
  | BackOffKind.exponential base max? =>
    let d := b.base_delay * base ^ b.round
    let d := if b.jitter.isSome ∧ 0 < b.round then
               d + rng (b.jitter.getD (0, 0)).1 (b.jitter.getD (0, 0)).2
             else d
    let d := match max? with
             | some m => min d m
             | none => d
    { b with _delay := d, round := b.round + 1 }

/-- The `delay` property (backoff.py:143-152): runs `_calculate_next_delay`
and returns the updated `_delay` together with the updated object state. -/
def BackOff.delay (rng : ℤ → ℤ → ℤ) (b : BackOff) : ℤ × BackOff :=
  let b' := _calculate_next_delay rng b
  (b'._delay, b')

/-- `BackOff.reset` (backoff.py:154-158): sets `_round = 0` and nothing
else; in particular `_delay` keeps its current value. -/
def BackOff.reset (b : BackOff) : BackOff :=
  { b with round := 0 }

/-- A sequence of `n` successive reads of the `delay` property, sampling
`rngs i` on the i-th read; returns the list of returned delays and the final
object state. -/
def readSeq (rngs : ℕ → ℤ → ℤ → ℤ) (b : BackOff) : ℕ → List ℤ × BackOff
  | 0 => ([], b)
  | Nat.succ n =>
    let p := BackOff.delay (rngs 0) b
    let q := readSeq (fun i => rngs (i + 1)) p.2 n
    (p.1 :: q.1, q.2)

/-- `copy.deepcopy` on a BackOff object: in this embedding object states are
immutable values, so a deep copy is the value itself; what matters is that
all subsequent mutations apply to the copy, which the state passing below
makes explicit. -/
def deepcopy (b : BackOff) : BackOff := b

/-- The state a freshly constructed instance with the same configured
parameters as `b` would have: `_round = 0` and `_delay = base_delay`
(every constructor sets these two fields this way). -/
def freshLike (b : BackOff) : BackOff :=
  { b with round := 0, _delay := b.base_delay }

/-- The fact guaranteed by `_validate_max` for the capped variants:
a configured cap is at least the base delay. -/
def capValid (b : BackOff) : Prop :=
  match b.kind with
  | BackOffKind.linear _ (some m) => b.base_delay ≤ m
  | BackOffKind.exponential _ (some m) => b.base_delay ≤ m
  | _ => True

/-- All numeric parameters and the current `_delay` of `b` are non-negative.
For `exponential` this includes the exponent base and for `randomUniform`
the two bounds, which the source never validates. -/
def NonnegInv (b : BackOff) : Prop :=
  0 ≤ b.base_delay ∧ 0 ≤ b._delay ∧
  (∀ lo hi, b.jitter = some (lo, hi) → 0 ≤ lo ∧ 0 ≤ hi) ∧
  (match b.kind with
   | BackOffKind.fixed => True
   | BackOffKind.linear step max? => 0 ≤ step ∧ (∀ m, max? = some m → 0 ≤ m)
   | BackOffKind.randomUniform lo hi => 0 ≤ lo ∧ 0 ≤ hi
   | BackOffKind.exponential base max? => 0 ≤ base ∧ (∀ m, max? = some m → 0 ≤ m))

/-- An oracle faithful to `random.uniform(a, b)`: the sample always lies
between the two arguments (in either order, as in CPython). -/
def rngValid (rng : ℤ → ℤ → ℤ) : Prop :=
  ∀ a b, min a b ≤ rng a b ∧ rng a b ≤ max a b

/-- Exceptions visible to the wrapper loop of retry.py: errors of the wrapped
operation (`userError`, distinguished by a code), and the three terminal
exception classes of _exceptions.py. -/
inductive PyExc where
  | userError (code : ℕ)
  | maxRetriesExc (max_retries : ℕ)
  | timeoutExc
  | deadlineExc
  deriving DecidableEq, Repr

/-- One call of the wrapped operation either returns a value or raises an
exception; `dur` is the wall-clock time the call itself consumes. -/
inductive OpResult where
  | ok (v : ℕ) (dur : ℤ)
  | raise (e : PyExc) (dur : ℤ)
  deriving DecidableEq, Repr

/-- The decorator arguments captured by the closure of `retry`
(retry.py:20-32).  `exceptions e` models `isinstance(e, exceptions)`; the
three callback fields record whether the corresponding optional callback was
supplied (their only observable effect here is being invoked, which the
wrapper state counts). -/
structure RetryConfig where
  exceptions : PyExc → Bool
  max_retries : Option ℕ
  backoff : BackOff
  timeout : Option ℤ
  deadline : Option ℤ
  failure_callback : Bool
  retry_callback : Bool
  successful_retry_callback : Bool
  reraise_exception : Bool

/-- Python truthiness of an optional number, as used by `if timeout:` and
`if deadline:` (retry.py:89, 102): `None` and `0` are falsy. -/
def truthy (q : Option ℤ) : Bool :=
  match q with
  | none => false
  | some x => decide (x ≠ 0)

/-- Mutable state of one invocation of the wrapper (retry.py:79-86) together
with instrumentation: `calls` counts invocations of the wrapped operation,
`delays` records the sleeps performed, `cntRetry` / `cntSuccessAfterRetry` /
`cntFailure` count callback invocations, and `signals` counts constructions
of a terminal exception (each construction logs and fires the failure
callback, per `BaseRetryException.__init__`, _exceptions.py:25-35). -/
structure WState where
  start_time : ℤ
  now : ℤ
  retries : ℕ
  calls : ℕ
  _backoff : BackOff
  last_exception : Option PyExc
  delays : List ℤ
  cntRetry : ℕ
  cntSuccessAfterRetry : ℕ
  cntFailure : ℕ
  signals : ℕ
  deriving DecidableEq, Repr

/-- Terminal result of one invocation of the wrapper: a returned value or a
propagated exception. -/
inductive Outcome where
  | success (v : ℕ)
  | raised (e : PyExc)
  deriving DecidableEq, Repr

/-- Side effects of constructing a `BaseRetryException`
(_exceptions.py:25-35): the message is logged and, if a failure callback was
supplied, it is invoked — at construction time, before the exception is even
raised. -/
def raiseSignal (cfg : RetryConfig) (st : WState) : WState :=
  { st with cntFailure := st.cntFailure + (if cfg.failure_callback then 1 else 0),
            signals := st.signals + 1 }

/-- What happened inside the `try` block of the wrapper (retry.py:88-116):
the timeout pre-check fired, the operation returned but the deadline
post-check fired, the operation returned normally, or the operation raised. -/
inductive TryEvent where
  | timeoutFire
  | deadlineFire (v : ℕ)
  | opOk (v : ℕ)
  | opRaise (e : PyExc)
  deriving DecidableEq, Repr

/-- The `try` block of the wrapper (retry.py:88-116): the timeout check runs
before the call (strict `>`), the deadline check runs after a successful
return (strict `>`); both construct their exception (side effects included)
before raising it. -/
def tryEval (cfg : RetryConfig) (op : ℕ → OpResult) (st : WState) : TryEvent × WState :=
  if truthy cfg.timeout ∧ st.now - st.start_time > cfg.timeout.getD 0 then
    (TryEvent.timeoutFire, raiseSignal cfg st)
  else
    match op st.calls with
    | OpResult.raise e d =>
      (TryEvent.opRaise e, { st with now := st.now + d, calls := st.calls + 1 })
    | OpResult.ok v d =>
      let st' := { st with now := st.now + d, calls := st.calls + 1 }
      if truthy cfg.deadline ∧ st'.now - st'.start_time > cfg.deadline.getD 0 then
        (TryEvent.deadlineFire v, raiseSignal cfg st')
      else
        (TryEvent.opOk v, st')

/-- The retry continuation (retry.py:136-154): read the next delay from the
backoff copy, log, invoke the retry callback if supplied, sleep for the
delay, increment `retries`, and loop. -/
def contin (cfg : RetryConfig) (rng : ℤ → ℤ → ℤ) (st : WState) : Option Outcome × WState :=
  let p := BackOff.delay rng st._backoff
  let st := { st with _backoff := p.2 }
  let st := if cfg.retry_callback then { st with cntRetry := st.cntRetry + 1 } else st
  let st := { st with now := st.now + p.1, delays := st.delays ++ [p.1],
                      retries := st.retries + 1 }
  (none, st)

/-- Body of the `except exceptions as original_exc` clause (retry.py:117-154):
terminal signals are re-raised (or replaced by the last underlying error when
`reraise_exception` is set), the error is recorded, the max-retries cap is
checked (raising the recorded error or a freshly constructed
`MaxRetriesException`), and otherwise the loop continues. -/
def handler (cfg : RetryConfig) (rng : ℤ → ℤ → ℤ) (st : WState) (original_exc : PyExc) :
    Option Outcome × WState :=
  if original_exc = PyExc.timeoutExc ∨ original_exc = PyExc.deadlineExc then
    if cfg.reraise_exception ∧ st.last_exception.isSome then
      (some (Outcome.raised (st.last_exception.getD original_exc)), st)
    else
      (some (Outcome.raised original_exc), st)
  else
    let st := { st with last_exception := some original_exc }
    match cfg.max_retries with
    | some m =>
      if st.retries = m then
        if cfg.reraise_exception ∧ st.last_exception.isSome then
          (some (Outcome.raised (st.last_exception.getD original_exc)), st)
        else
          let st := raiseSignal cfg st
          (some (Outcome.raised (PyExc.maxRetriesExc m)), st)
      else
        contin cfg rng st
    | none => contin cfg rng st

/-- Dispatch of a raised exception against the `except exceptions` clause
(retry.py:117): an exception not matching the configured tuple propagates
uncaught; a matching one enters the handler. -/
def onRaise (cfg : RetryConfig) (rng : ℤ → ℤ → ℤ) (st : WState) (e : PyExc) :
    Option Outcome × WState :=
  if cfg.exceptions e then handler cfg rng st e
  else (some (Outcome.raised e), st)

/-- One iteration of the `while True` loop of the wrapper (retry.py:87-154).
On a plain successful return the successful-retry callback fires when
`retries > 0` (retry.py:113-114) and the result is returned. -/
def wrapperIter (cfg : RetryConfig) (op : ℕ → OpResult) (rng : ℤ → ℤ → ℤ) (st : WState) :
    Option Outcome × WState :=
  match tryEval cfg op st with
  | (TryEvent.timeoutFire, st') => onRaise cfg rng st' PyExc.timeoutExc
  | (TryEvent.deadlineFire _, st') => onRaise cfg rng st' PyExc.deadlineExc
  | (TryEvent.opRaise e, st') => onRaise cfg rng st' e
  | (TryEvent.opOk v, st') =>
    let st'' := if 0 < st'.retries ∧ cfg.successful_retry_callback then
                  { st' with cntSuccessAfterRetry := st'.cntSuccessAfterRetry + 1 }
                else st'
    (some (Outcome.success v), st'')

/-- The `while True` loop, fuel-indexed: `none` means the loop did not
terminate within `fuel` iterations. -/
def runWrapper (cfg : RetryConfig) (op : ℕ → OpResult) (rngs : ℕ → ℤ → ℤ → ℤ) :
    ℕ → WState → Option (Outcome × WState)
  | 0, _ => none
  | Nat.succ n, st =>
    match wrapperIter cfg op (rngs 0) st with
    | (some out, st') => some (out, st')
    | (none, st') => runWrapper cfg op (fun i => rngs (i + 1)) n st'

/-- Initial wrapper state (retry.py:80-85): capture the start time, zero the
retry counter, and work on a reset deep copy of the configured backoff. -/
def initState (b : BackOff) (start : ℤ) : WState :=
  { start_time := start, now := start, retries := 0, calls := 0,
    _backoff := BackOff.reset (deepcopy b), last_exception := none, delays := [],
    cntRetry := 0, cntSuccessAfterRetry := 0, cntFailure := 0, signals := 0 }

/-- One invocation of the decorated function, with the decorator-held shared
BackOff object made explicit: the invocation works on `reset (deepcopy shared)`
(retry.py:82-83) and the shared object itself is returned as the closure
state for the next invocation. -/
def invokeShared (cfg : RetryConfig) (op : ℕ → OpResult) (rngs : ℕ → ℤ → ℤ → ℤ)
    (fuel : ℕ) (start : ℤ) (shared : BackOff) :
    Option (Outcome × WState) × BackOff :=
  (runWrapper cfg op rngs fuel (initState shared start), shared)

/-- One invocation of the decorated function (retry.py:79-154). -/
def wrapper (cfg : RetryConfig) (op : ℕ → OpResult) (rngs : ℕ → ℤ → ℤ → ℤ)
    (fuel : ℕ) (start : ℤ) : Option (Outcome × WState) :=
  (invokeShared cfg op rngs fuel start cfg.backoff).1

/-- Modelled from the spec: the exclusion branch of the Retry Executor is
code of this repository missing from src/ — `excluded_exceptions` is declared
only in the `_validate_args` signature (src/retry_reloaded/_validate.py:8) and
the wrapper in src/retry_reloaded/retry.py has no excluded set.  Per the spec,
excluded-exception membership is checked before retryable membership and an
excluded error propagates immediately, uncaught, with no retry and no
callback; otherwise dispatch proceeds exactly as in the source wrapper. -/
def onRaiseExcl (cfg : RetryConfig) (excluded : PyExc → Bool) (rng : ℤ → ℤ → ℤ)
    (st : WState) (e : PyExc) : Option Outcome × WState :=
  if excluded e then (some (Outcome.raised e), st)
  else onRaise cfg rng st e

/-- Modelled from the spec: one loop iteration of the Executor extended with
the excluded-exception set (see `onRaiseExcl`). -/
def wrapperIterExcl (cfg : RetryConfig) (excluded : PyExc → Bool) (op : ℕ → OpResult)
    (rng : ℤ → ℤ → ℤ) (st : WState) : Option Outcome × WState :=
  match tryEval cfg op st with
  | (TryEvent.timeoutFire, st') => onRaiseExcl cfg excluded rng st' PyExc.timeoutExc
  | (TryEvent.deadlineFire _, st') => onRaiseExcl cfg excluded rng st' PyExc.deadlineExc
  | (TryEvent.opRaise e, st') => onRaiseExcl cfg excluded rng st' e
  | (TryEvent.opOk v, st') =>
    let st'' := if 0 < st'.retries ∧ cfg.successful_retry_callback then
                  { st' with cntSuccessAfterRetry := st'.cntSuccessAfterRetry + 1 }
                else st'
    (some (Outcome.success v), st'')

/-- Modelled from the spec: the Executor loop with an excluded-exception set
(fuel-indexed like `runWrapper`). -/
def runWrapperExcl (cfg : RetryConfig) (excluded : PyExc → Bool) (op : ℕ → OpResult)
    (rngs : ℕ → ℤ → ℤ → ℤ) : ℕ → WState → Option (Outcome × WState)
  | 0, _ => none
  | Nat.succ n, st =>
    match wrapperIterExcl cfg excluded op (rngs 0) st with
    | (some out, st') => some (out, st')
    | (none, st') => runWrapperExcl cfg excluded op (fun i => rngs (i + 1)) n st'

/-- Modelled from the spec: one invocation of the Executor with an
excluded-exception set. -/
def wrapperExcl (cfg : RetryConfig) (excluded : PyExc → Bool) (op : ℕ → OpResult)
    (rngs : ℕ → ℤ → ℤ → ℤ) (fuel : ℕ) (start : ℤ) : Option (Outcome × WState) :=
  runWrapperExcl cfg excluded op rngs fuel (initState cfg.backoff start)

/-- The exception that reaches the caller when a terminal signal `s` is
raised inside the loop with wrapper state `st`: the prior recorded underlying
error replaces `s` exactly when the signal is caught by the configured tuple,
`reraise_exception` is set, and a prior error exists (retry.py:117-121). -/
def sigOut (cfg : RetryConfig) (st : WState) (s : PyExc) : PyExc :=
  if cfg.exceptions s ∧ cfg.reraise_exception ∧ st.last_exception.isSome then
    st.last_exception.getD s
  else s

/-- Result of binding a positional call in Python: either every parameter is
bound (pairing parameter names with argument values) or the call raises
`TypeError`, reporting the required parameters left unbound. -/
inductive CallBind (V : Type) where
  | bound (pairs : List (String × V))
  | typeError (missing : List String)
  deriving DecidableEq, Repr

/-- Positional binding of a call `f(a1, ..., ak)` against a Python function
whose parameters all lack defaults: arguments bind to parameters left to
right; if arguments run out the call raises `TypeError` naming the missing
required parameters, and surplus arguments also raise `TypeError`. -/
def bindPositional {V : Type} (params : List String) (args : List V) : CallBind V :=
  if args.length < params.length then
    CallBind.typeError (params.drop args.length)
  else if params.length < args.length then
    CallBind.typeError []
  else
    CallBind.bound (params.zip args)

/-- The parameter list of `_validate_args`
(src/retry_reloaded/_validate.py:6-19), in source order; none of the twelve
parameters has a default. -/
def _validate_args_params : List String :=
  ["exceptions", "excluded_exceptions", "max_retries", "backoff", "timeout",
   "deadline", "logger", "log_retry_traceback", "failure_callback",
   "retry_callback", "successful_retry_callback", "reraise_exception"]

/-- The names of the eleven expressions `retry` passes positionally to
`_validate_args` (src/retry_reloaded/retry.py:70-75), in source order. -/
def retry_validate_call_args : List String :=
  ["exceptions", "max_retries", "backoff", "timeout", "deadline", "logger",
   "log_retry_traceback", "failure_callback", "retry_callback",
   "successful_retry_callback", "reraise_exception"]

/-- What `retry(...)` does at wrap time: either the internal
`_validate_args` call raises `TypeError` (so no wrapper is produced and the
operation is never invoked), or a wrapper is produced. -/
inductive WrapResult (V : Type) where
  | typeErrorAtWrap (missing : List String)
  | wrapped (bound : List (String × V))
  deriving DecidableEq, Repr

/-- Wrap-time behavior of the decorator `retry` (retry.py:20-75) for an
arbitrary combination of argument values: the body first calls
`_validate_args` with the eleven values below as positional arguments
(retry.py:70-75); the call raises `TypeError` if they fail to bind to the
twelve-parameter signature, and only otherwise is `wrapped_func` returned. -/
def retry_decorate {V : Type} (exceptions max_retries backoff timeout deadline
    logger log_retry_traceback failure_callback retry_callback
    successful_retry_callback reraise_exception : V) : WrapResult V :=
  match bindPositional _validate_args_params
      [exceptions, max_retries, backoff, timeout, deadline, logger,
       log_retry_traceback, failure_callback, retry_callback,
       successful_retry_callback, reraise_exception] with
  | CallBind.typeError missing => WrapResult.typeErrorAtWrap missing
  | CallBind.bound pairs => WrapResult.wrapped pairs

/-- The state `FixedBackOff(base_delay=0)` constructs — the decorator's
default backoff (retry.py:23). -/
def fixedZero : BackOff :=
  { base_delay := 0, jitter := none, _delay := 0, round := 0,
    kind := BackOffKind.fixed }

/-- The state `RandomUniformBackOff(1, 5, 5)` constructs. -/
def ruOneFiveFive : BackOff :=
  { base_delay := 1, jitter := none, _delay := 1, round := 0,
    kind := BackOffKind.randomUniform 5 5 }

/-- A sampling oracle that always returns the first bound; at the only
sampling point exercised by the concrete runs below, `random.uniform(5, 5)`,
every faithful oracle returns exactly this value. -/
def rngLo : ℤ → ℤ → ℤ := fun a _ => a

/-- The constant oracle family used by concrete runs that never sample. -/
def rngsLo : ℕ → ℤ → ℤ → ℤ := fun _ => rngLo

/-- Concrete configuration for the timeout scenario of the spec: every
exception retryable, no cap, default zero-delay backoff, `timeout=2`,
no deadline, no callbacks, no reraise. -/
def cfgTimeout2 : RetryConfig :=
  { exceptions := fun _ => true, max_retries := none, backoff := fixedZero,
    timeout := some 2, deadline := none, failure_callback := false,
    retry_callback := false, successful_retry_callback := false,
    reraise_exception := false }

/-- Concrete configuration for the deadline scenario: every exception
retryable, no cap, zero-delay backoff, no timeout, `deadline=5`, no
callbacks, `reraise_exception=True`. -/
def cfgDeadlineReraise : RetryConfig :=
  { exceptions := fun _ => true, max_retries := none, backoff := fixedZero,
    timeout := none, deadline := some 5, failure_callback := false,
    retry_callback := false, successful_retry_callback := false,
    reraise_exception := true }

/-- An operation that always fails with `userError 0`, each call consuming
one second of simulated time. -/
def opAlwaysFail1s : ℕ → OpResult := fun _ => OpResult.raise (PyExc.userError 0) 1

/-- An operation whose first call fails with `userError 7` (1 second) and
whose second call returns `42` after 10 seconds. -/
def opFailThenSlowOk : ℕ → OpResult := fun k =>
  match k with
  | 0 => OpResult.raise (PyExc.userError 7) 1
  | _ => OpResult.ok 42 10

/-- The state `ExponentialBackOff(base_delay=1, base=-1)` constructs: the
negative exponent base is accepted because the constructor never validates
it. -/
def expNegOne : BackOff :=
  { base_delay := 1, jitter := none, _delay := 1, round := 0,
    kind := BackOffKind.exponential (-1) none }

/-- The state `LinearBackOff(base_delay=2, step=3, max=10)` constructs. -/
def linTwoThreeTen : BackOff :=
  { base_delay := 2, jitter := none, _delay := 2, round := 0,
    kind := BackOffKind.linear 3 (some 10) }

/-- Concrete configuration with all three callbacks supplied:
`max_retries=1`, zero-delay backoff, no timeout or deadline, no reraise. -/
def cfgCb : RetryConfig :=
  { exceptions := fun _ => true, max_retries := some 1, backoff := fixedZero,
    timeout := none, deadline := none, failure_callback := true,
    retry_callback := true, successful_retry_callback := true,
    reraise_exception := false }

/-- The final wrapper state of running `cfgCb` on `opAlwaysFail1s`: two
invocations, one retry (hence one retry-callback call), one constructed
`MaxRetriesException` (hence one failure-callback call). -/
def stCbFinal : WState :=
  { start_time := 0, now := 2, retries := 1, calls := 2,
    _backoff := { base_delay := 0, jitter := none, _delay := 0, round := 1,
                  kind := BackOffKind.fixed },
    last_exception := some (PyExc.userError 0), delays := [0],
    cntRetry := 1, cntSuccessAfterRetry := 0, cntFailure := 1, signals := 1 }

lemma calc_reset_eq_fresh (b : BackOff) (rng : ℤ → ℤ → ℤ)
    (hk : ∀ lo hi, b.kind ≠ BackOffKind.randomUniform lo hi) :
    _calculate_next_delay rng (BackOff.reset b) = _calculate_next_delay rng (freshLike b) := by
  rcases b with ⟨bd, j, dl, rd, k⟩
  cases k with
  | fixed => rfl
  | linear s m => rfl
  | randomUniform lo hi => exact absurd rfl (hk lo hi)
  | exponential e m => rfl

lemma readSeq_reset_eq_fresh (b : BackOff) (rngs : ℕ → ℤ → ℤ → ℤ) (n : ℕ)
    (hk : ∀ lo hi, b.kind ≠ BackOffKind.randomUniform lo hi) :
    (readSeq rngs (BackOff.reset b) n).1 = (readSeq rngs (freshLike b) n).1 := by
  cases n with
  | zero => rfl
  | succ n =>
    have h : BackOff.delay (rngs 0) (BackOff.reset b) = BackOff.delay (rngs 0) (freshLike b) := by
      unfold BackOff.delay
      rw [calc_reset_eq_fresh b (rngs 0) hk]
    simp only [readSeq, h]

/-- C4 (amended): for the Fixed, Linear and Exponential variants, `reset()`
followed by any sequence of `delay` reads is observably identical to a
freshly constructed instance with the same parameters, and the first delay
read after `reset()` equals `base_delay` (given the validated cap bound, and
with no jitter applied at round 0).  For RandomUniformBackOff, `reset()`
restores only the round counter: the first `delay` read after it returns the
previously stored `_delay` value — which the counterexample shows can differ
from `base_delay` — because `_calculate_next_delay` does not reassign
`_delay` at round 0. -/
theorem backoff_reset_behavior :
    (∀ (b : BackOff) (rngs : ℕ → ℤ → ℤ → ℤ) (n : ℕ),
       (∀ lo hi, b.kind ≠ BackOffKind.randomUniform lo hi) →
       (readSeq rngs (BackOff.reset b) n).1 = (readSeq rngs (freshLike b) n).1)
    ∧ (∀ (b : BackOff) (rng : ℤ → ℤ → ℤ),
       capValid b →
       (∀ lo hi, b.kind ≠ BackOffKind.randomUniform lo hi) →
       (BackOff.delay rng (BackOff.reset b)).1 = b.base_delay)
    ∧ (∀ (b : BackOff) (lo hi : ℤ) (rng : ℤ → ℤ → ℤ),
       b.kind = BackOffKind.randomUniform lo hi →
       (BackOff.delay rng (BackOff.reset b)).1 = b._delay) := by
  refine ⟨readSeq_reset_eq_fresh, ?_, ?_⟩
  · intro b rng hcap hk
    rcases b with ⟨bd, j, dl, rd, k⟩
    cases k with
    | fixed => simp [BackOff.delay, _calculate_next_delay, BackOff.reset]
    | linear s m =>
      cases m with
      | none => simp [BackOff.delay, _calculate_next_delay, BackOff.reset]
      | some mv =>
        have hbm : bd ≤ mv := by
          simpa [capValid] using hcap
        simp [BackOff.delay, _calculate_next_delay, BackOff.reset, min_eq_left hbm]
    | randomUniform lo hi => exact absurd rfl (hk lo hi)
    | exponential e m =>
      cases m with
      | none => simp [BackOff.delay, _calculate_next_delay, BackOff.reset]
      | some mv =>
        have hbm : bd ≤ mv := by
          simpa [capValid] using hcap
        simp [BackOff.delay, _calculate_next_delay, BackOff.reset, min_eq_left hbm]
  · intro b lo hi rng hk
    rcases b with ⟨bd, j, dl, rd, k⟩
    cases k with
    | fixed => simp at hk
    | linear s m => simp at hk
    | randomUniform lo' hi' =>
      simp [BackOff.delay, _calculate_next_delay, BackOff.reset]
    | exponential e m => simp at hk

/-- C4 counterexample: on `RandomUniformBackOff(1, 5, 5)` two delay reads
followed by `reset()` leave the object returning `5` on its next read, while
a fresh instance returns `base_delay = 1` — `reset()` does not restore
round-0 behavior for this variant. -/
theorem backoff_reset_randomUniform_stale :
    RandomUniformBackOff.make 1 5 5 = Except.ok ruOneFiveFive
    ∧ (readSeq rngsLo ruOneFiveFive 2).1 = [1, 5]
    ∧ (BackOff.delay rngLo (BackOff.reset (readSeq rngsLo ruOneFiveFive 2).2)).1 = 5
    ∧ (BackOff.delay rngLo ruOneFiveFive).1 = 1
    ∧ ruOneFiveFive.base_delay = 1
    ∧ (5 : ℤ) ≠ 1 :=
  ⟨rfl, rfl, rfl, rfl, rfl, by decide⟩

lemma if_sample_nonneg {j : Option (ℤ × ℤ)} (rng : ℤ → ℤ → ℤ) (hr : rngValid rng)
    (h3 : ∀ lo hi : ℤ, j = some (lo, hi) → 0 ≤ lo ∧ 0 ≤ hi)
    {base : ℤ} (hbase : 0 ≤ base) (c : Prop) [Decidable c] (hcj : c → j.isSome = true) :
    0 ≤ (if c then base + rng (j.getD (0, 0)).1 (j.getD (0, 0)).2 else base) := by
  split
  · next hc =>
    cases hjj : j with
    | none =>
      have := hcj hc
      rw [hjj] at this
      simp at this
    | some pr =>
      obtain ⟨lo, hi⟩ := pr
      obtain ⟨hlo, hhi⟩ := h3 lo hi hjj
      have hs : 0 ≤ rng lo hi := le_trans (le_min hlo hhi) (hr lo hi).1
      show 0 ≤ base + rng lo hi
      omega
  · exact hbase

lemma nonneg_calc (b : BackOff) (rng : ℤ → ℤ → ℤ)
    (hb : NonnegInv b) (hr : rngValid rng) :
    NonnegInv (_calculate_next_delay rng b) := by
  rcases b with ⟨bd, j, dl, rd, k⟩
  obtain ⟨h1, h2, h3, h4⟩ := hb
  cases k with
  | fixed =>
    exact ⟨h1, if_sample_nonneg rng hr h3 h1 _ (fun hc => hc.2), h3, trivial⟩
  | linear s m =>
    obtain ⟨hs, hm⟩ := h4
    have hd0 : 0 ≤ bd + s * (rd : ℤ) :=
      add_nonneg h1 (mul_nonneg hs (Int.natCast_nonneg rd))
    have hjit := if_sample_nonneg rng hr h3 hd0
      (0 < rd ∧ j.isSome = true) (fun hc => hc.2)
    cases m with
    | none => exact ⟨h1, hjit, h3, hs, hm⟩
    | some mv => exact ⟨h1, le_min hjit (hm mv rfl), h3, hs, hm⟩
  | randomUniform lo hi =>
    obtain ⟨hlo, hhi⟩ := h4
    show NonnegInv (if 0 < rd then _ else _)
    by_cases hrd : 0 < rd
    · rw [if_pos hrd]
      exact ⟨h1, le_trans (le_min hlo hhi) (hr lo hi).1, h3, hlo, hhi⟩
    · rw [if_neg hrd]
      exact ⟨h1, h2, h3, hlo, hhi⟩
  | exponential e m =>
    obtain ⟨he, hm⟩ := h4
    have hd0 : 0 ≤ bd * e ^ rd := mul_nonneg h1 (pow_nonneg he rd)
    have hjit := if_sample_nonneg rng hr h3 hd0
      (j.isSome = true ∧ 0 < rd) (fun hc => hc.1)
    cases m with
    | none => exact ⟨h1, hjit, h3, he, hm⟩
    | some mv => exact ⟨h1, le_min hjit (hm mv rfl), h3, he, hm⟩

lemma validate_base_delay_ok {bd r : ℤ} (h : _validate_base_delay bd = Except.ok r) :
    r = bd ∧ 0 ≤ bd := by
  unfold _validate_base_delay at h
  split at h
  · simp at h
  · next hneg =>
    injection h with hh
    exact ⟨hh.symm, by omega⟩

lemma validate_jitter_ok {j r : Option (ℤ × ℤ)} (h : _validate_jitter j = Except.ok r) :
    r = j ∧ ∀ lo hi, j = some (lo, hi) → 0 ≤ lo ∧ 0 ≤ hi ∧ lo ≤ hi := by
  cases j with
  | none =>
    unfold _validate_jitter at h
    injection h with hh
    exact ⟨hh.symm, by simp⟩
  | some pr =>
    obtain ⟨lo, hi⟩ := pr
    unfold _validate_jitter at h
    simp only at h
    split at h
    · simp at h
    · next hneg =>
      split at h
      · simp at h
      · next hord =>
        injection h with hh
        push_neg at hneg
        refine ⟨hh.symm, ?_⟩
        intro lo' hi' he
        injection he with he2
        cases he2
        exact ⟨hneg.1, hneg.2, by omega⟩

lemma validate_step_ok {bd : ℤ} {s? : Option ℤ} {r : ℤ}
    (h : _validate_step bd s? = Except.ok r) :
    (s? = none ∧ r = bd) ∨ (s? = some r ∧ 0 ≤ r) := by
  cases s? with
  | none =>
    unfold _validate_step at h
    injection h with hh
    exact Or.inl ⟨rfl, hh.symm⟩
  | some s =>
    unfold _validate_step at h
    simp only at h
    split at h
    · simp at h
    · next hneg =>
      injection h with hh
      exact Or.inr ⟨by rw [hh], by omega⟩

lemma validate_max_ok {bd : ℤ} {m? r : Option ℤ} (h : _validate_max bd m? = Except.ok r) :
    r = m? ∧ ∀ m, m? = some m → bd ≤ m := by
  cases m? with
  | none =>
    unfold _validate_max at h
    injection h with hh
    exact ⟨hh.symm, by simp⟩
  | some mv =>
    unfold _validate_max at h
    simp only at h
    split at h
    · simp at h
    · next hge =>
      injection h with hh
      refine ⟨hh.symm, ?_⟩
      intro m hm
      injection hm with hm2
      omega

lemma initFields_ok {bd : ℤ} {j : Option (ℤ × ℤ)} {p : ℤ × Option (ℤ × ℤ)}
    (h : BackOff.initFields bd j = Except.ok p) :
    0 ≤ bd ∧ p = (bd, j) ∧ ∀ lo hi, j = some (lo, hi) → 0 ≤ lo ∧ 0 ≤ hi ∧ lo ≤ hi := by
  unfold BackOff.initFields at h
  split at h
  · simp at h
  · next bd' hbd =>
    split at h
    · simp at h
    · next j' hj =>
      obtain ⟨rfl, hbd0⟩ := validate_base_delay_ok hbd
      obtain ⟨rfl, hjb⟩ := validate_jitter_ok hj
      injection h with hh
      exact ⟨hbd0, hh.symm, hjb⟩

/-- C5 (amended): every `delay` read is non-negative for every construction
the code accepts, provided additionally that the Exponential exponent base
and the RandomUniform `min_delay`/`max_delay` are non-negative — conditions
the validated Fixed/Linear parameters already imply, but which the
constructors never check for these two variants (see the counterexample). -/
theorem backoff_delay_nonneg :
    (∀ (b : BackOff) (rngs : ℕ → ℤ → ℤ → ℤ) (n : ℕ),
       NonnegInv b → (∀ i, rngValid (rngs i)) →
       ∀ d ∈ (readSeq rngs b n).1, 0 ≤ d)
    ∧ (∀ bd j b, FixedBackOff.make bd j = Except.ok b → NonnegInv b)
    ∧ (∀ bd s j m b, LinearBackOff.make bd s j m = Except.ok b → NonnegInv b)
    ∧ (∀ bd e j m b, ExponentialBackOff.make bd e j m = Except.ok b →
        0 ≤ e.getD 2 → NonnegInv b)
    ∧ (∀ bd lo hi b, RandomUniformBackOff.make bd lo hi = Except.ok b →
        0 ≤ lo → 0 ≤ hi → NonnegInv b) := by
  refine ⟨?_, ?_, ?_, ?_, ?_⟩
  · intro b rngs n
    induction n generalizing b rngs with
    | zero => intro _ _ d hd; simp [readSeq] at hd
    | succ n ih =>
      intro hb hr d hd
      simp only [readSeq, BackOff.delay, List.mem_cons] at hd
      have hb' : NonnegInv (_calculate_next_delay (rngs 0) b) :=
        nonneg_calc b (rngs 0) hb (hr 0)
      rcases hd with hd | hd
      · rw [hd]; exact hb'.2.1
      · exact ih (_calculate_next_delay (rngs 0) b) (fun i => rngs (i + 1)) hb'
          (fun i => hr (i + 1)) d hd
  · intro bd j b h
    unfold FixedBackOff.make at h
    split at h
    · simp at h
    · next p hp =>
      obtain ⟨h1, rfl, h3⟩ := initFields_ok hp
      injection h with hh
      subst hh
      exact ⟨h1, h1, fun lo hi hj => ⟨(h3 lo hi hj).1, (h3 lo hi hj).2.1⟩, trivial⟩
  · intro bd s j m b h
    unfold LinearBackOff.make at h
    split at h
    · simp at h
    · next p hp =>
      split at h
      · simp at h
      · next s' hs' =>
        split at h
        · simp at h
        · next m' hm' =>
          obtain ⟨h1, rfl, h3⟩ := initFields_ok hp
          have hstep := validate_step_ok hs'
          have hmax := validate_max_ok hm'
          injection h with hh
          subst hh
          refine ⟨h1, h1, fun lo hi hj => ⟨(h3 lo hi hj).1, (h3 lo hi hj).2.1⟩, ?_, ?_⟩
          · rcases hstep with ⟨_, rfl⟩ | ⟨_, hs0⟩
            · exact h1
            · exact hs0
          · intro x hx
            rw [hmax.1] at hx
            have := hmax.2 x hx
            omega
  · intro bd e j m b h he
    unfold ExponentialBackOff.make at h
    split at h
    · simp at h
    · next p hp =>
      split at h
      · simp at h
      · next m' hm' =>
        obtain ⟨h1, rfl, h3⟩ := initFields_ok hp
        have hmax := validate_max_ok hm'
        injection h with hh
        subst hh
        refine ⟨h1, h1, fun lo hi hj => ⟨(h3 lo hi hj).1, (h3 lo hi hj).2.1⟩, he, ?_⟩
        intro x hx
        rw [hmax.1] at hx
        have := hmax.2 x hx
        omega
  · intro bd lo hi b h hlo hhi
    unfold RandomUniformBackOff.make at h
    split at h
    · simp at h
    · next p hp =>
      obtain ⟨h1, rfl, _⟩ := initFields_ok hp
      injection h with hh
      subst hh
      exact ⟨h1, h1, by simp, hlo, hhi⟩

/-- C5 counterexample: `ExponentialBackOff(base_delay=1, base=-1)` is
accepted by construction-time validation and its second `delay` read
returns `-1 < 0`. -/
theorem backoff_negative_delay_accepted :
    ExponentialBackOff.make 1 (some (-1)) none none = Except.ok expNegOne
    ∧ (readSeq rngsLo expNegOne 2).1 = [1, -1]
    ∧ ¬ (0 ≤ (-1 : ℤ)) :=
  ⟨rfl, rfl, by decide⟩

/-- C1: for every combination of argument values handed to
`retry_reloaded.retry`, the decorator raises `TypeError` while still at wrap
time: the eleven positional arguments passed to `_validate_args`
(retry.py:70-75) fail to bind to its twelve-parameter signature
(_validate.py:6-19) — `excluded_exceptions` captures the `max_retries` value,
every later binding shifts by one, and `reraise_exception` is left unbound —
so no wrapper is produced and the wrapped operation is never invoked. -/
theorem retry_decorate_type_error {V : Type} (exceptions max_retries backoff
    timeout deadline logger log_retry_traceback failure_callback retry_callback
    successful_retry_callback reraise_exception : V) :
    retry_decorate exceptions max_retries backoff timeout deadline logger
        log_retry_traceback failure_callback retry_callback
        successful_retry_callback reraise_exception
      = WrapResult.typeErrorAtWrap ["reraise_exception"]
    ∧ ("excluded_exceptions", "max_retries")
        ∈ _validate_args_params.zip retry_validate_call_args
    ∧ _validate_args_params.length = 12
    ∧ retry_validate_call_args.length = 11 := by
  refine ⟨rfl, ?_, rfl, rfl⟩
  simp [_validate_args_params, retry_validate_call_args]

/-- C9: the decorator-held BackOff object is never mutated by invocations of
the wrapper — each invocation works on a reset deep copy — so the shared
object is a fixed point of sequential invocation chains of any length, and
the k-th invocation in such a chain produces exactly the same outcome and
final wrapper state (including the observed delay sequence) as a first
invocation would. -/
theorem backoff_isolation (cfg : RetryConfig) (op : ℕ → OpResult)
    (rngs : ℕ → ℤ → ℤ → ℤ) (fuel : ℕ) (start : ℤ) (b : BackOff) (k : ℕ) :
    (fun b0 => (invokeShared cfg op rngs fuel start b0).2)^[k] b = b
    ∧ (invokeShared cfg op rngs fuel start
         ((fun b0 => (invokeShared cfg op rngs fuel start b0).2)^[k] b)).1
       = (invokeShared cfg op rngs fuel start b).1 := by
  have h : (fun b0 : BackOff => (invokeShared cfg op rngs fuel start b0).2) = id := rfl
  rw [h, Function.iterate_id]
  exact ⟨rfl, rfl⟩

lemma rngLo_valid : rngValid rngLo :=
  fun a b => ⟨min_le_left a b, le_max_left a b⟩

/-- Witness for the amended C4 theorem at concrete instances. -/
theorem backoff_reset_behavior_witness :
    (readSeq rngsLo (BackOff.reset fixedZero) 2).1
        = (readSeq rngsLo (freshLike fixedZero) 2).1
    ∧ (BackOff.delay rngLo (BackOff.reset linTwoThreeTen)).1 = linTwoThreeTen.base_delay
    ∧ (BackOff.delay rngLo (BackOff.reset ruOneFiveFive)).1 = ruOneFiveFive._delay :=
  ⟨backoff_reset_behavior.1 fixedZero rngsLo 2 (fun lo hi h => by simp [fixedZero] at h),
   backoff_reset_behavior.2.1 linTwoThreeTen rngLo (by decide : (2 : ℤ) ≤ 10)
     (fun lo hi h => by simp [linTwoThreeTen] at h),
   backoff_reset_behavior.2.2 ruOneFiveFive 5 5 rngLo rfl⟩

/-- Witness for the amended C5 theorem: a validated RandomUniform instance
with non-negative bounds yields the delay list `[1, 5]`, whose sampled
element `5` the theorem proves non-negative. -/
theorem backoff_delay_nonneg_witness :
    (readSeq rngsLo ruOneFiveFive 2).1 = [1, 5] ∧ (0 : ℤ) ≤ 5 := by
  refine ⟨by decide, ?_⟩
  exact backoff_delay_nonneg.1 ruOneFiveFive rngsLo 2
    (backoff_delay_nonneg.2.2.2.2 1 5 5 ruOneFiveFive rfl (by decide) (by decide))
    (fun i => rngLo_valid) 5 (by decide)

lemma contin_spec (cfg : RetryConfig) (rng : ℤ → ℤ → ℤ) (st : WState) :
    (contin cfg rng st).1 = none
    ∧ (contin cfg rng st).2.retries = st.retries + 1
    ∧ (contin cfg rng st).2.calls = st.calls
    ∧ (contin cfg rng st).2.cntRetry = st.cntRetry + (if cfg.retry_callback then 1 else 0)
    ∧ (contin cfg rng st).2.signals = st.signals
    ∧ (contin cfg rng st).2.cntFailure = st.cntFailure
    ∧ (contin cfg rng st).2.cntSuccessAfterRetry = st.cntSuccessAfterRetry
    ∧ (contin cfg rng st).2.last_exception = st.last_exception := by
  unfold contin
  by_cases hrb : cfg.retry_callback <;> simp [hrb]

/-- C3 (spec-modelled): an operation raising an error of the configured
excluded set propagates that error unchanged after exactly one invocation,
whatever `max_retries` is configured and even when the error also belongs to
the retryable set (exclusion is checked first: the quantified `cfg` includes
configurations whose `exceptions` predicate matches the error). -/
theorem excluded_exception_propagates (cfg : RetryConfig) (excluded : PyExc → Bool)
    (op : ℕ → OpResult) (rngs : ℕ → ℤ → ℤ → ℤ) (e0 : PyExc) (d : ℤ) (fuel : ℕ) (start : ℤ)
    (ht : cfg.timeout = none)
    (hop : op 0 = OpResult.raise e0 d)
    (hex : excluded e0 = true)
    (hfuel : 1 ≤ fuel) :
    ∃ st', wrapperExcl cfg excluded op rngs fuel start = some (Outcome.raised e0, st')
      ∧ st'.calls = 1 := by
  obtain ⟨n, rfl⟩ : ∃ n, fuel = n + 1 := ⟨fuel - 1, by omega⟩
  unfold wrapperExcl runWrapperExcl wrapperIterExcl tryEval onRaiseExcl
  rw [ht]
  simp only [truthy, Bool.false_eq_true, false_and, if_false, initState]
  simp only [hop, hex, if_true]
  exact ⟨_, rfl, rfl⟩

/-- Witness for C3: `ValueError`-style exclusion (`userError 0` excluded)
propagates after one call even though the retryable set also matches it and
`max_retries = 5`. -/
theorem excluded_exception_propagates_witness :
    ∃ st', wrapperExcl { cfgTimeout2 with timeout := none, max_retries := some 5 }
        (fun e => e == PyExc.userError 0) opAlwaysFail1s rngsLo 1 0
        = some (Outcome.raised (PyExc.userError 0), st')
      ∧ st'.calls = 1 :=
  excluded_exception_propagates _ _ opAlwaysFail1s rngsLo (PyExc.userError 0) 1 1 0
    rfl rfl (by decide) (by decide)

lemma iter_fail_continue (cfg : RetryConfig) (op : ℕ → OpResult) (rng : ℤ → ℤ → ℤ)
    (st : WState) (c : ℕ) (d : ℤ) (n : ℕ)
    (ht : cfg.timeout = none)
    (hmr : cfg.max_retries = some n)
    (hop : op st.calls = OpResult.raise (PyExc.userError c) d)
    (hcaught : cfg.exceptions (PyExc.userError c) = true)
    (hne : st.retries ≠ n) :
    (wrapperIter cfg op rng st).1 = none
    ∧ (wrapperIter cfg op rng st).2.retries = st.retries + 1
    ∧ (wrapperIter cfg op rng st).2.calls = st.calls + 1 := by
  unfold wrapperIter tryEval onRaise handler
  rw [ht]
  simp only [truthy, Bool.false_eq_true, false_and, if_false, hop, hcaught, if_true]
  simp only [hmr]
  simp [hne]
  have hs := contin_spec cfg rng
    { st with now := st.now + d, calls := st.calls + 1,
              last_exception := some (PyExc.userError c) }
  exact ⟨hs.1, by rw [hs.2.1], by rw [hs.2.2.1]⟩

lemma iter_fail_terminal (cfg : RetryConfig) (op : ℕ → OpResult) (rng : ℤ → ℤ → ℤ)
    (st : WState) (c : ℕ) (d : ℤ) (n : ℕ)
    (ht : cfg.timeout = none)
    (hmr : cfg.max_retries = some n)
    (hop : op st.calls = OpResult.raise (PyExc.userError c) d)
    (hcaught : cfg.exceptions (PyExc.userError c) = true)
    (heq : st.retries = n) :
    (wrapperIter cfg op rng st).1
        = some (Outcome.raised
            (if cfg.reraise_exception then PyExc.userError c else PyExc.maxRetriesExc n))
    ∧ (wrapperIter cfg op rng st).2.calls = st.calls + 1 := by
  unfold wrapperIter tryEval onRaise handler
  rw [ht]
  simp only [truthy, Bool.false_eq_true, false_and, if_false, hop, hcaught, if_true]
  simp only [hmr]
  by_cases hre : cfg.reraise_exception <;> simp [hre, heq, raiseSignal]

lemma run_always_fail (cfg : RetryConfig) (op : ℕ → OpResult) (n : ℕ)
    (ht : cfg.timeout = none)
    (hmr : cfg.max_retries = some n)
    (hop : ∀ k, ∃ c d, op k = OpResult.raise (PyExc.userError c) d
             ∧ cfg.exceptions (PyExc.userError c) = true) :
    ∀ (k : ℕ) (rngs : ℕ → ℤ → ℤ → ℤ) (st : WState),
      st.retries + k = n → st.calls = st.retries →
      ∃ st' e, runWrapper cfg op rngs (k + 1) st = some (Outcome.raised e, st')
        ∧ st'.calls = n + 1
        ∧ (cfg.reraise_exception = false → e = PyExc.maxRetriesExc n)
        ∧ (cfg.reraise_exception = true →
            ∃ c d, op n = OpResult.raise (PyExc.userError c) d ∧ e = PyExc.userError c) := by
  intro k
  induction k with
  | zero =>
    intro rngs st h1 h2
    obtain ⟨c, d, hoc, hcc⟩ := hop st.calls
    have heq : st.retries = n := by omega
    have hterm := iter_fail_terminal cfg op (rngs 0) st c d n ht hmr hoc hcc heq
    cases hw : wrapperIter cfg op (rngs 0) st with
    | mk o st2 =>
      rw [hw] at hterm
      obtain ⟨ho, hc2⟩ := hterm
      simp only at ho hc2
      refine ⟨st2,
        (if cfg.reraise_exception then PyExc.userError c else PyExc.maxRetriesExc n),
        ?_, by omega, ?_, ?_⟩
      · show (match wrapperIter cfg op (rngs 0) st with
          | (some out, st') => some (out, st')
          | (none, st') => runWrapper cfg op (fun i => rngs (i + 1)) 0 st') = _
        rw [hw, ho]
      · intro hre
        simp [hre]
      · intro hre
        have hn : st.calls = n := by omega
        rw [hn] at hoc
        exact ⟨c, d, hoc, by simp [hre]⟩
  | succ k ih =>
    intro rngs st h1 h2
    obtain ⟨c, d, hoc, hcc⟩ := hop st.calls
    have hne : st.retries ≠ n := by omega
    have hcont := iter_fail_continue cfg op (rngs 0) st c d n ht hmr hoc hcc hne
    cases hw : wrapperIter cfg op (rngs 0) st with
    | mk o st2 =>
      rw [hw] at hcont
      obtain ⟨ho, hr2, hc2⟩ := hcont
      simp only at ho hr2 hc2
      subst ho
      obtain ⟨st', e, hrun, hcalls, hef, het⟩ :=
        ih (fun i => rngs (i + 1)) st2 (by omega) (by omega)
      refine ⟨st', e, ?_, hcalls, hef, het⟩
      show (match wrapperIter cfg op (rngs 0) st with
        | (some out, st') => some (out, st')
        | (none, st') => runWrapper cfg op (fun i => rngs (i + 1)) (k + 1) st') = _
      rw [hw]
      exact hrun

/-- C2: with `max_retries = n`, no timeout and no deadline, an operation
that raises a retryable (non-terminal) error on every call is invoked
exactly `n + 1` times, after which the wrapper raises `MaxRetriesException`;
with `reraise_exception` set it instead raises the last underlying error —
the one raised by the final, (n+1)-st, invocation. -/
theorem max_retries_exhaustion (cfg : RetryConfig) (op : ℕ → OpResult)
    (rngs : ℕ → ℤ → ℤ → ℤ) (start : ℤ) (n : ℕ)
    (ht : cfg.timeout = none) (hd : cfg.deadline = none)
    (hmr : cfg.max_retries = some n)
    (hop : ∀ k, ∃ c d, op k = OpResult.raise (PyExc.userError c) d
             ∧ cfg.exceptions (PyExc.userError c) = true) :
    (cfg.reraise_exception = false →
      ∃ st', wrapper cfg op rngs (n + 1) start
          = some (Outcome.raised (PyExc.maxRetriesExc n), st')
        ∧ st'.calls = n + 1)
    ∧ (cfg.reraise_exception = true →
      ∃ st' c d, op n = OpResult.raise (PyExc.userError c) d
        ∧ wrapper cfg op rngs (n + 1) start = some (Outcome.raised (PyExc.userError c), st')
        ∧ st'.calls = n + 1) := by
  obtain ⟨st', e, hr, hcalls, hef, het⟩ :=
    run_always_fail cfg op n ht hmr hop n rngs (initState cfg.backoff start)
      (by simp [initState]) (by simp [initState])
  constructor
  · intro hre
    rw [hef hre] at hr
    exact ⟨st', hr, hcalls⟩
  · intro hre
    obtain ⟨c, dd, hoc, hec⟩ := het hre
    rw [hec] at hr
    exact ⟨st', c, dd, hoc, hr, hcalls⟩

/-- Witness for C2 at `n = 2` with an always-failing one-second operation. -/
theorem max_retries_exhaustion_witness :
    ∃ st', wrapper { cfgTimeout2 with timeout := none, max_retries := some 2 }
        opAlwaysFail1s rngsLo 3 0
        = some (Outcome.raised (PyExc.maxRetriesExc 2), st')
      ∧ st'.calls = 3 :=
  (max_retries_exhaustion _ opAlwaysFail1s rngsLo 0 2 rfl rfl rfl
    (fun _ => ⟨0, 1, rfl, rfl⟩)).1 rfl

lemma onRaise_signal (cfg : RetryConfig) (rng : ℤ → ℤ → ℤ) (st : WState) (s : PyExc)
    (hs : s = PyExc.timeoutExc ∨ s = PyExc.deadlineExc) :
    onRaise cfg rng st s = (some (Outcome.raised (sigOut cfg st s)), st) := by
  unfold onRaise
  by_cases hc : cfg.exceptions s = true
  · rw [if_pos hc]
    unfold handler
    rw [if_pos hs]
    unfold sigOut
    by_cases hre : cfg.reraise_exception = true
    · by_cases hls : st.last_exception.isSome = true
      · rw [if_pos ⟨hre, hls⟩, if_pos ⟨hc, hre, hls⟩]
      · rw [if_neg (by tauto), if_neg (by tauto)]
    · rw [if_neg (by tauto), if_neg (by tauto)]
  · rw [if_neg hc]
    unfold sigOut
    rw [if_neg (by tauto)]

lemma iter_timeout_fire (cfg : RetryConfig) (op : ℕ → OpResult) (rng : ℤ → ℤ → ℤ)
    (st : WState)
    (hfire : truthy cfg.timeout = true ∧ st.now - st.start_time > cfg.timeout.getD 0) :
    wrapperIter cfg op rng st
      = (some (Outcome.raised (sigOut cfg st PyExc.timeoutExc)), raiseSignal cfg st) := by
  unfold wrapperIter tryEval
  rw [if_pos hfire]
  exact onRaise_signal cfg rng (raiseSignal cfg st) PyExc.timeoutExc (Or.inl rfl)

lemma iter_op_signal (cfg : RetryConfig) (op : ℕ → OpResult) (rng : ℤ → ℤ → ℤ)
    (st : WState) (s : PyExc) (d : ℤ)
    (hnf : ¬ (truthy cfg.timeout = true ∧ st.now - st.start_time > cfg.timeout.getD 0))
    (hop : op st.calls = OpResult.raise s d)
    (hs : s = PyExc.timeoutExc ∨ s = PyExc.deadlineExc) :
    wrapperIter cfg op rng st
      = (some (Outcome.raised (sigOut cfg st s)),
         { st with now := st.now + d, calls := st.calls + 1 }) := by
  unfold wrapperIter tryEval
  rw [if_neg hnf, hop]
  exact onRaise_signal cfg rng { st with now := st.now + d, calls := st.calls + 1 } s hs

lemma iter_deadline_fire (cfg : RetryConfig) (op : ℕ → OpResult) (rng : ℤ → ℤ → ℤ)
    (st : WState) (v : ℕ) (d : ℤ)
    (hnf : ¬ (truthy cfg.timeout = true ∧ st.now - st.start_time > cfg.timeout.getD 0))
    (hop : op st.calls = OpResult.ok v d)
    (hdl : truthy cfg.deadline = true)
    (hgt : st.now + d - st.start_time > cfg.deadline.getD 0) :
    wrapperIter cfg op rng st
      = (some (Outcome.raised (sigOut cfg st PyExc.deadlineExc)),
         raiseSignal cfg { st with now := st.now + d, calls := st.calls + 1 }) := by
  unfold wrapperIter tryEval
  rw [if_neg hnf, hop]
  dsimp only
  rw [if_pos (⟨hdl, hgt⟩ : truthy cfg.deadline = true
      ∧ st.now + d - st.start_time > cfg.deadline.getD 0)]
  exact onRaise_signal cfg rng _ PyExc.deadlineExc (Or.inr rfl)

lemma handler_outcomes (cfg : RetryConfig) (rng : ℤ → ℤ → ℤ) (st : WState) (e : PyExc) :
    (handler cfg rng st e).1 = none
    ∨ (handler cfg rng st e).1 = some (Outcome.raised e)
    ∨ (∃ x, st.last_exception = some x ∧ (handler cfg rng st e).1 = some (Outcome.raised x))
    ∨ (∃ m, (handler cfg rng st e).1 = some (Outcome.raised (PyExc.maxRetriesExc m))) := by
  unfold handler
  split
  · split
    · next hcond =>
      cases hl : st.last_exception with
      | none => rw [hl] at hcond; simp at hcond
      | some x => exact Or.inr (Or.inr (Or.inl ⟨x, rfl, rfl⟩))
    · exact Or.inr (Or.inl rfl)
  · dsimp only
    split
    · next m hm =>
      split
      · split
        · exact Or.inr (Or.inl rfl)
        · exact Or.inr (Or.inr (Or.inr ⟨m, rfl⟩))
      · exact Or.inl (contin_spec cfg rng _).1
    · exact Or.inl (contin_spec cfg rng _).1

lemma onRaise_outcomes (cfg : RetryConfig) (rng : ℤ → ℤ → ℤ) (st : WState) (e : PyExc) :
    (onRaise cfg rng st e).1 = none
    ∨ (onRaise cfg rng st e).1 = some (Outcome.raised e)
    ∨ (∃ x, st.last_exception = some x ∧ (onRaise cfg rng st e).1 = some (Outcome.raised x))
    ∨ (∃ m, (onRaise cfg rng st e).1 = some (Outcome.raised (PyExc.maxRetriesExc m))) := by
  unfold onRaise
  split
  · exact handler_outcomes cfg rng st e
  · right; left; rfl

/-- C8: a terminal signal raised inside the loop — by the timeout pre-check,
by the deadline post-check, or by the operation itself raising one of the
terminal exception types — is never retried: the iteration terminates at
once, and the exception reaching the caller is the signal itself, except
that when the signal is caught by the configured tuple, `reraise_exception`
is set and a prior underlying error is recorded, that prior error is raised
instead (`sigOut`). -/
theorem terminal_signals_never_retried (cfg : RetryConfig) (op : ℕ → OpResult)
    (rng : ℤ → ℤ → ℤ) (st : WState) :
    (truthy cfg.timeout = true ∧ st.now - st.start_time > cfg.timeout.getD 0 →
      wrapperIter cfg op rng st
        = (some (Outcome.raised (sigOut cfg st PyExc.timeoutExc)), raiseSignal cfg st))
    ∧ (∀ s d, ¬ (truthy cfg.timeout = true ∧ st.now - st.start_time > cfg.timeout.getD 0) →
        op st.calls = OpResult.raise s d →
        (s = PyExc.timeoutExc ∨ s = PyExc.deadlineExc) →
        wrapperIter cfg op rng st
          = (some (Outcome.raised (sigOut cfg st s)),
             { st with now := st.now + d, calls := st.calls + 1 }))
    ∧ (∀ v d, ¬ (truthy cfg.timeout = true ∧ st.now - st.start_time > cfg.timeout.getD 0) →
        op st.calls = OpResult.ok v d →
        truthy cfg.deadline = true →
        st.now + d - st.start_time > cfg.deadline.getD 0 →
        wrapperIter cfg op rng st
          = (some (Outcome.raised (sigOut cfg st PyExc.deadlineExc)),
             raiseSignal cfg { st with now := st.now + d, calls := st.calls + 1 })) :=
  ⟨fun hfire => iter_timeout_fire cfg op rng st hfire,
   fun s d hnf hop hs => iter_op_signal cfg op rng st s d hnf hop hs,
   fun v d hnf hop hdl hgt => iter_deadline_fire cfg op rng st v d hnf hop hdl hgt⟩

/-- Witness for C8: all three signal sites at concrete states. -/
theorem terminal_signals_never_retried_witness :
    wrapperIter { cfgTimeout2 with timeout := some (-1) } opAlwaysFail1s rngLo
        (initState fixedZero 0)
      = (some (Outcome.raised (sigOut { cfgTimeout2 with timeout := some (-1) }
           (initState fixedZero 0) PyExc.timeoutExc)),
         raiseSignal { cfgTimeout2 with timeout := some (-1) } (initState fixedZero 0))
    ∧ wrapperIter cfgDeadlineReraise (fun _ => OpResult.raise PyExc.timeoutExc 1) rngLo
        (initState fixedZero 0)
      = (some (Outcome.raised (sigOut cfgDeadlineReraise
           (initState fixedZero 0) PyExc.timeoutExc)),
         { initState fixedZero 0 with now := 0 + 1, calls := 0 + 1 })
    ∧ wrapperIter cfgDeadlineReraise (fun _ => OpResult.ok 1 7) rngLo
        (initState fixedZero 0)
      = (some (Outcome.raised (sigOut cfgDeadlineReraise
           (initState fixedZero 0) PyExc.deadlineExc)),
         raiseSignal cfgDeadlineReraise
           { initState fixedZero 0 with now := 0 + 7, calls := 0 + 1 }) :=
  ⟨(terminal_signals_never_retried _ opAlwaysFail1s rngLo _).1 (by decide),
   (terminal_signals_never_retried _ _ rngLo _).2.1 PyExc.timeoutExc 1
     (by decide) rfl (Or.inl rfl),
   (terminal_signals_never_retried _ _ rngLo _).2.2 1 7 (by decide) rfl rfl (by decide)⟩

/-- C6 (amended): when a deadline budget is configured and the operation
returns normally with total elapsed time strictly over the deadline, the
successful value is discarded and the iteration raises `DeadlineExceeded` —
unless the signal is caught, `reraise_exception` is set and a prior
underlying error was recorded, in which case that prior error is raised
instead (see the counterexample against the unamended claim).  The deadline
post-check never applies to a failing call: an iteration in which the
operation raises (a non-deadline error, with no deadline signal recorded
earlier) cannot produce `DeadlineExceeded`. -/
theorem deadline_post_check (cfg : RetryConfig) (op : ℕ → OpResult)
    (rng : ℤ → ℤ → ℤ) (st : WState) :
    (∀ v d, op st.calls = OpResult.ok v d →
      ¬ (truthy cfg.timeout = true ∧ st.now - st.start_time > cfg.timeout.getD 0) →
      truthy cfg.deadline = true →
      st.now + d - st.start_time > cfg.deadline.getD 0 →
      (wrapperIter cfg op rng st).1
          = some (Outcome.raised (sigOut cfg st PyExc.deadlineExc))
      ∧ ∀ u, (wrapperIter cfg op rng st).1 ≠ some (Outcome.success u))
    ∧ (∀ e d, op st.calls = OpResult.raise e d →
        e ≠ PyExc.deadlineExc →
        st.last_exception ≠ some PyExc.deadlineExc →
        (wrapperIter cfg op rng st).1 ≠ some (Outcome.raised PyExc.deadlineExc)) := by
  constructor
  · intro v d hop hnf hdl hgt
    rw [iter_deadline_fire cfg op rng st v d hnf hop hdl hgt]
    exact ⟨rfl, fun u h => by simp at h⟩
  · intro e d hop hne hlast
    by_cases hf : truthy cfg.timeout = true ∧ st.now - st.start_time > cfg.timeout.getD 0
    · rw [iter_timeout_fire cfg op rng st hf]
      intro h
      simp only [Prod.fst, Option.some.injEq, Outcome.raised.injEq] at h
      unfold sigOut at h
      split at h
      · next hcond =>
        cases hl : st.last_exception with
        | none => rw [hl] at hcond; simp at hcond
        | some x =>
          rw [hl] at h
          simp only [Option.getD_some] at h
          rw [h] at hl
          exact hlast hl
      · simp at h
    · have hiter : wrapperIter cfg op rng st
          = onRaise cfg rng { st with now := st.now + d, calls := st.calls + 1 } e := by
        unfold wrapperIter tryEval
        rw [if_neg hf, hop]
      rw [hiter]
      rcases onRaise_outcomes cfg rng
          { st with now := st.now + d, calls := st.calls + 1 } e with h | h | ⟨x, hx, h⟩ | ⟨m, h⟩
      · rw [h]; simp
      · rw [h]
        intro hcontra
        simp only [Option.some.injEq, Outcome.raised.injEq] at hcontra
        exact hne hcontra
      · rw [h]
        intro hcontra
        simp only [Option.some.injEq, Outcome.raised.injEq] at hcontra
        rw [hcontra] at hx
        exact hlast hx
      · rw [h]; simp

/-- Witness for the amended C6 theorem: a first call that succeeds after
seven seconds against `deadline = 5`. -/
theorem deadline_post_check_witness :
    (wrapperIter cfgDeadlineReraise (fun _ => OpResult.ok 1 7) rngLo
        (initState fixedZero 0)).1
      = some (Outcome.raised (sigOut cfgDeadlineReraise
          (initState fixedZero 0) PyExc.deadlineExc))
    ∧ (wrapperIter cfgDeadlineReraise opAlwaysFail1s rngLo
        (initState fixedZero 0)).1 ≠ some (Outcome.raised PyExc.deadlineExc) :=
  ⟨((deadline_post_check cfgDeadlineReraise _ rngLo _).1 1 7 rfl (by decide) rfl
      (by decide)).1,
   (deadline_post_check cfgDeadlineReraise opAlwaysFail1s rngLo _).2
     (PyExc.userError 0) 1 rfl (by decide) (by decide)⟩

/-- C6 counterexample: with `reraise_exception=True`, a recorded prior error
(`userError 7`) and a final successful call overrunning `deadline = 5`, the
wrapper raises the prior underlying error, not `DeadlineExceeded`, although
every condition of the claim holds. -/
theorem deadline_reraise_counterexample :
    (wrapper cfgDeadlineReraise opFailThenSlowOk rngsLo 3 0).map
        (fun p => (p.1, p.2.calls))
      = some (Outcome.raised (PyExc.userError 7), 2)
    ∧ opFailThenSlowOk 1 = OpResult.ok 42 10
    ∧ truthy cfgDeadlineReraise.deadline = true
    ∧ ((0 : ℤ) + 1 + 0 + 10) - 0 > cfgDeadlineReraise.deadline.getD 0
    ∧ Outcome.raised (PyExc.userError 7) ≠ Outcome.raised PyExc.deadlineExc :=
  ⟨rfl, rfl, rfl, by decide, by decide⟩

/-- C7 (amended): with `timeout = 2` seconds and an always-failing retryable
operation costing exactly one second per call (zero-delay default backoff),
the wrapper raises `TimeoutExceeded` after exactly THREE invocations, not
two: the pre-attempt check uses strict `>`, so the attempt starting at
elapsed time exactly 2 (= timeout) still runs, and the loop aborts only at
elapsed time 3. -/
theorem timeout_three_invocations (c : ℕ → ℕ) (rngs : ℕ → ℤ → ℤ → ℤ) :
    ∃ st', wrapper cfgTimeout2
        (fun k => OpResult.raise (PyExc.userError (c k)) 1) rngs 4 0
        = some (Outcome.raised PyExc.timeoutExc, st')
      ∧ st'.calls = 3 := by
  refine ⟨_, rfl, rfl⟩

/-- C7 counterexample: on the spec's own scenario the concrete run performs
three invocations before `TimeoutExceeded`, not the claimed two. -/
theorem timeout_two_invocations_refuted :
    (wrapper cfgTimeout2 opAlwaysFail1s rngsLo 4 0).map (fun p => (p.1, p.2.calls))
      = some (Outcome.raised PyExc.timeoutExc, 3)
    ∧ (3 : ℕ) ≠ 2 :=
  ⟨rfl, by decide⟩

lemma tryEval_cases (cfg : RetryConfig) (op : ℕ → OpResult) (st : WState) :
    (tryEval cfg op st = (TryEvent.timeoutFire, raiseSignal cfg st))
    ∨ (∃ v d, op st.calls = OpResult.ok v d
        ∧ tryEval cfg op st = (TryEvent.deadlineFire v,
            raiseSignal cfg { st with now := st.now + d, calls := st.calls + 1 }))
    ∨ (∃ v d, op st.calls = OpResult.ok v d
        ∧ tryEval cfg op st = (TryEvent.opOk v,
            { st with now := st.now + d, calls := st.calls + 1 }))
    ∨ (∃ e d, op st.calls = OpResult.raise e d
        ∧ tryEval cfg op st = (TryEvent.opRaise e,
            { st with now := st.now + d, calls := st.calls + 1 })) := by
  unfold tryEval
  split
  · exact Or.inl rfl
  · split
    · next e d heq => exact Or.inr (Or.inr (Or.inr ⟨e, d, heq, rfl⟩))
    · next v d heq =>
      dsimp only
      split
      · exact Or.inr (Or.inl ⟨v, d, heq, rfl⟩)
      · exact Or.inr (Or.inr (Or.inl ⟨v, d, heq, rfl⟩))

lemma onRaise_user_counts (cfg : RetryConfig) (rng : ℤ → ℤ → ℤ) (st : WState) (cc : ℕ) :
    ((onRaise cfg rng st (PyExc.userError cc)).1 = none →
       (onRaise cfg rng st (PyExc.userError cc)).2.retries = st.retries + 1
       ∧ (onRaise cfg rng st (PyExc.userError cc)).2.cntRetry
           = st.cntRetry + (if cfg.retry_callback then 1 else 0)
       ∧ (onRaise cfg rng st (PyExc.userError cc)).2.signals = st.signals
       ∧ (onRaise cfg rng st (PyExc.userError cc)).2.cntFailure = st.cntFailure
       ∧ (onRaise cfg rng st (PyExc.userError cc)).2.cntSuccessAfterRetry
           = st.cntSuccessAfterRetry
       ∧ (onRaise cfg rng st (PyExc.userError cc)).2.last_exception
           = some (PyExc.userError cc))
    ∧ (∀ v, (onRaise cfg rng st (PyExc.userError cc)).1 ≠ some (Outcome.success v))
    ∧ (∀ x, (onRaise cfg rng st (PyExc.userError cc)).1 = some (Outcome.raised x) →
       (onRaise cfg rng st (PyExc.userError cc)).2.retries = st.retries
       ∧ (onRaise cfg rng st (PyExc.userError cc)).2.cntRetry = st.cntRetry
       ∧ (onRaise cfg rng st (PyExc.userError cc)).2.cntSuccessAfterRetry
           = st.cntSuccessAfterRetry
       ∧ (((x = PyExc.userError cc ∨ st.last_exception = some x)
           ∧ (onRaise cfg rng st (PyExc.userError cc)).2.signals = st.signals
           ∧ (onRaise cfg rng st (PyExc.userError cc)).2.cntFailure = st.cntFailure)
          ∨ ((∃ m, x = PyExc.maxRetriesExc m)
           ∧ (onRaise cfg rng st (PyExc.userError cc)).2.signals = st.signals + 1
           ∧ (onRaise cfg rng st (PyExc.userError cc)).2.cntFailure
               = st.cntFailure + (if cfg.failure_callback then 1 else 0)))) := by
  unfold onRaise
  split
  · unfold handler
    rw [if_neg (by simp)]
    dsimp only
    split
    · next m hm =>
      split
      · split
        · refine ⟨fun h => by simp at h, fun v h => by simp at h, fun x hx => ?_⟩
          simp only [Option.some.injEq, Outcome.raised.injEq] at hx
          exact ⟨rfl, rfl, rfl, Or.inl ⟨Or.inl hx.symm, rfl, rfl⟩⟩
        · refine ⟨fun h => by simp at h, fun v h => by simp at h, fun x hx => ?_⟩
          simp only [Option.some.injEq, Outcome.raised.injEq] at hx
          exact ⟨rfl, rfl, rfl, Or.inr ⟨⟨m, hx.symm⟩, rfl, rfl⟩⟩
      · have hs := contin_spec cfg rng
          { st with last_exception := some (PyExc.userError cc) }
        refine ⟨fun _ => ?_, fun v h => ?_, fun x hx => ?_⟩
        · exact ⟨by rw [hs.2.1], by rw [hs.2.2.2.1], by rw [hs.2.2.2.2.1],
            by rw [hs.2.2.2.2.2.1], by rw [hs.2.2.2.2.2.2.1], by rw [hs.2.2.2.2.2.2.2]⟩
        · rw [hs.1] at h; simp at h
        · rw [hs.1] at hx; simp at hx
    · have hs := contin_spec cfg rng
        { st with last_exception := some (PyExc.userError cc) }
      refine ⟨fun _ => ?_, fun v h => ?_, fun x hx => ?_⟩
      · exact ⟨by rw [hs.2.1], by rw [hs.2.2.2.1], by rw [hs.2.2.2.2.1],
          by rw [hs.2.2.2.2.2.1], by rw [hs.2.2.2.2.2.2.1], by rw [hs.2.2.2.2.2.2.2]⟩
      · rw [hs.1] at h; simp at h
      · rw [hs.1] at hx; simp at hx
  · refine ⟨fun h => by simp at h, fun v h => by simp at h, fun x hx => ?_⟩
    simp only [Option.some.injEq, Outcome.raised.injEq] at hx
    exact ⟨rfl, rfl, rfl, Or.inl ⟨Or.inl hx.symm, rfl, rfl⟩⟩

lemma iter_spec (cfg : RetryConfig) (op : ℕ → OpResult) (rng : ℤ → ℤ → ℤ) (st : WState)
    (hop : ∀ e d, op st.calls = OpResult.raise e d → ∃ cc, e = PyExc.userError cc)
    (hlast : ∀ e, st.last_exception = some e → ∃ cc, e = PyExc.userError cc) :
    ((wrapperIter cfg op rng st).1 = none →
       (wrapperIter cfg op rng st).2.retries = st.retries + 1
       ∧ (wrapperIter cfg op rng st).2.cntRetry
           = st.cntRetry + (if cfg.retry_callback then 1 else 0)
       ∧ (wrapperIter cfg op rng st).2.signals = st.signals
       ∧ (wrapperIter cfg op rng st).2.cntFailure = st.cntFailure
       ∧ (wrapperIter cfg op rng st).2.cntSuccessAfterRetry = st.cntSuccessAfterRetry
       ∧ (∀ e, (wrapperIter cfg op rng st).2.last_exception = some e →
           ∃ cc, e = PyExc.userError cc))
    ∧ (∀ v, (wrapperIter cfg op rng st).1 = some (Outcome.success v) →
       (wrapperIter cfg op rng st).2.retries = st.retries
       ∧ (wrapperIter cfg op rng st).2.cntRetry = st.cntRetry
       ∧ (wrapperIter cfg op rng st).2.signals = st.signals
       ∧ (wrapperIter cfg op rng st).2.cntFailure = st.cntFailure
       ∧ (wrapperIter cfg op rng st).2.cntSuccessAfterRetry
           = st.cntSuccessAfterRetry
             + (if 0 < st.retries ∧ cfg.successful_retry_callback then 1 else 0))
    ∧ (∀ e, (wrapperIter cfg op rng st).1 = some (Outcome.raised e) →
       (wrapperIter cfg op rng st).2.retries = st.retries
       ∧ (wrapperIter cfg op rng st).2.cntRetry = st.cntRetry
       ∧ (wrapperIter cfg op rng st).2.cntSuccessAfterRetry = st.cntSuccessAfterRetry
       ∧ ((wrapperIter cfg op rng st).2.signals = st.signals
           ∨ (wrapperIter cfg op rng st).2.signals = st.signals + 1)
       ∧ (wrapperIter cfg op rng st).2.cntFailure
           = st.cntFailure + (if cfg.failure_callback then
               (wrapperIter cfg op rng st).2.signals - st.signals else 0)
       ∧ ((e = PyExc.timeoutExc ∨ e = PyExc.deadlineExc ∨ ∃ m, e = PyExc.maxRetriesExc m) →
            (wrapperIter cfg op rng st).2.signals = st.signals + 1)) := by
  rcases tryEval_cases cfg op st with hte | ⟨v, d, hoc, hte⟩ | ⟨v, d, hoc, hte⟩ | ⟨e0, d, hoc, hte⟩
  · -- timeout pre-check fired
    have hw : wrapperIter cfg op rng st
        = onRaise cfg rng (raiseSignal cfg st) PyExc.timeoutExc := by
      unfold wrapperIter
      rw [hte]
    rw [hw, onRaise_signal cfg rng (raiseSignal cfg st) PyExc.timeoutExc (Or.inl rfl)]
    refine ⟨fun h => by simp at h, fun v h => by simp at h, fun x hx => ?_⟩
    refine ⟨rfl, rfl, rfl, Or.inr rfl, ?_, fun _ => rfl⟩
    unfold raiseSignal
    by_cases hfb : cfg.failure_callback = true <;> simp [hfb]
  · -- deadline post-check fired
    have hw : wrapperIter cfg op rng st
        = onRaise cfg rng
            (raiseSignal cfg { st with now := st.now + d, calls := st.calls + 1 })
            PyExc.deadlineExc := by
      unfold wrapperIter
      rw [hte]
    rw [hw, onRaise_signal cfg rng _ PyExc.deadlineExc (Or.inr rfl)]
    refine ⟨fun h => by simp at h, fun v h => by simp at h, fun x hx => ?_⟩
    refine ⟨rfl, rfl, rfl, Or.inr rfl, ?_, fun _ => rfl⟩
    unfold raiseSignal
    by_cases hfb : cfg.failure_callback = true <;> simp [hfb]
  · -- plain success
    have hw : wrapperIter cfg op rng st
        = (some (Outcome.success v),
           if 0 < st.retries ∧ cfg.successful_retry_callback = true then
             { st with now := st.now + d, calls := st.calls + 1,
                       cntSuccessAfterRetry := st.cntSuccessAfterRetry + 1 }
           else { st with now := st.now + d, calls := st.calls + 1 }) := by
      unfold wrapperIter
      rw [hte]
    rw [hw]
    refine ⟨fun h => by simp at h, fun u hu => ?_, fun x hx => by simp at hx⟩
    by_cases hsb : 0 < st.retries ∧ cfg.successful_retry_callback = true
    · rw [if_pos hsb]
      exact ⟨rfl, rfl, rfl, rfl, by rw [if_pos hsb]⟩
    · rw [if_neg hsb]
      exact ⟨rfl, rfl, rfl, rfl, by rw [if_neg hsb]; simp⟩
  · -- the operation raised
    obtain ⟨cc, rfl⟩ := hop e0 d hoc
    have hw : wrapperIter cfg op rng st
        = onRaise cfg rng { st with now := st.now + d, calls := st.calls + 1 }
            (PyExc.userError cc) := by
      unfold wrapperIter
      rw [hte]
    have hcounts := onRaise_user_counts cfg rng
      { st with now := st.now + d, calls := st.calls + 1 } cc
    rw [hw]
    refine ⟨fun h => ?_, fun u hu => absurd hu (hcounts.2.1 u), fun x hx => ?_⟩
    · obtain ⟨c1, c2, c3, c4, c5, c6⟩ := hcounts.1 h
      refine ⟨by rw [c1], by rw [c2], by rw [c3], by rw [c4], by rw [c5], ?_⟩
      intro e he
      rw [c6] at he
      injection he with he2
      exact ⟨cc, he2.symm⟩
    · obtain ⟨c1, c2, c3, c4⟩ := hcounts.2.2 x hx
      rcases c4 with ⟨hx1, hsig, hcf⟩ | ⟨⟨m, hm⟩, hsig, hcf⟩
      · refine ⟨by rw [c1], by rw [c2], by rw [c3], Or.inl (by rw [hsig]), ?_, ?_⟩
        · rw [hcf, hsig]
          simp
        · intro hterm
          exfalso
          rcases hx1 with rfl | hlx
          · rcases hterm with h | h | ⟨m, h⟩ <;> simp at h
          · obtain ⟨cc2, rfl⟩ := hlast x hlx
            rcases hterm with h | h | ⟨m, h⟩ <;> simp at h
      · refine ⟨by rw [c1], by rw [c2], by rw [c3], Or.inr (by rw [hsig]), ?_, fun _ => by rw [hsig]⟩
        rw [hcf, hsig]
        by_cases hfb : cfg.failure_callback = true <;> simp [hfb]

lemma run_counts (cfg : RetryConfig) (op : ℕ → OpResult)
    (hop : ∀ k e d, op k = OpResult.raise e d → ∃ cc, e = PyExc.userError cc) :
    ∀ (fuel : ℕ) (rngs : ℕ → ℤ → ℤ → ℤ) (st : WState) (out : Outcome) (st' : WState),
      runWrapper cfg op rngs fuel st = some (out, st') →
      st.cntRetry = (if cfg.retry_callback then st.retries else 0) →
      st.cntSuccessAfterRetry = 0 →
      st.signals = 0 →
      st.cntFailure = 0 →
      (∀ e, st.last_exception = some e → ∃ cc, e = PyExc.userError cc) →
      st'.cntRetry = (if cfg.retry_callback then st'.retries else 0)
      ∧ st'.cntFailure = (if cfg.failure_callback then st'.signals else 0)
      ∧ st'.signals ≤ 1
      ∧ (∀ v, out = Outcome.success v →
          st'.signals = 0
          ∧ st'.cntSuccessAfterRetry
              = (if 0 < st'.retries ∧ cfg.successful_retry_callback then 1 else 0))
      ∧ (∀ e, out = Outcome.raised e → st'.cntSuccessAfterRetry = 0)
      ∧ (∀ e, out = Outcome.raised e →
          (e = PyExc.timeoutExc ∨ e = PyExc.deadlineExc ∨ ∃ m, e = PyExc.maxRetriesExc m) →
          st'.signals = 1) := by
  intro fuel
  induction fuel with
  | zero =>
    intro rngs st out st' hrun
    simp [runWrapper] at hrun
  | succ n ih =>
    intro rngs st out st' hrun h1 h2 h3 h4 h5
    have hspec := iter_spec cfg op (rngs 0) st (fun e d h => hop st.calls e d h) h5
    cases hw : wrapperIter cfg op (rngs 0) st with
    | mk o st2 =>
      rw [hw] at hspec
      dsimp only at hspec
      obtain ⟨hcont, hsucc, hrais⟩ := hspec
      rw [show runWrapper cfg op rngs (n + 1) st
            = (match wrapperIter cfg op (rngs 0) st with
               | (some o2, stx) => some (o2, stx)
               | (none, stx) => runWrapper cfg op (fun i => rngs (i + 1)) n stx) from rfl,
          hw] at hrun
      cases o with
      | none =>
        dsimp only at hrun
        obtain ⟨c1, c2, c3, c4, c5, c6⟩ := hcont rfl
        refine ih (fun i => rngs (i + 1)) st2 out st' hrun ?_ ?_ ?_ ?_ c6
        · rw [c2, h1, c1]
          by_cases hrb : cfg.retry_callback = true <;> simp [hrb]
        · rw [c5, h2]
        · rw [c3, h3]
        · rw [c4, h4]
      | some o2 =>
        dsimp only at hrun
        injection hrun with hrun2
        injection hrun2 with ha hb
        rw [← ha, ← hb]
        cases o2 with
        | success v =>
          obtain ⟨s1, s2, s3, s4, s5⟩ := hsucc v rfl
          refine ⟨?_, ?_, ?_, ?_, ?_, ?_⟩
          · rw [s2, h1, s1]
          · rw [s4, h4, s3, h3]
            by_cases hfb : cfg.failure_callback = true <;> simp [hfb]
          · rw [s3, h3]
            omega
          · intro u _
            refine ⟨by rw [s3, h3], ?_⟩
            rw [s5, h2, s1]
            simp
          · intro e he
            exact absurd he (by simp)
          · intro e he
            exact absurd he (by simp)
        | raised e =>
          obtain ⟨r1, r2, r3, r4, r5, r6⟩ := hrais e rfl
          refine ⟨?_, ?_, ?_, ?_, ?_, ?_⟩
          · rw [r2, h1, r1]
          · rw [r5, h4, h3]
            by_cases hfb : cfg.failure_callback = true <;> simp [hfb]
          · rcases r4 with hs | hs <;> rw [hs, h3] <;> omega
          · intro v hv
            exact absurd hv (by simp)
          · intro e2 _
            rw [r3, h2]
          · intro e2 he2 hterm
            have he : e2 = e := by
              injection he2 with h
              exact h.symm
            subst he
            rw [r6 hterm, h3]

/-- C10: callback discipline of the wrapper, for operations whose own
errors are plain (non-terminal) exceptions.  On every terminated invocation:
the retry callback fires exactly once per retry (`cntRetry = retries` when
supplied, never on the final success or the terminal failure); the
failure callback fires exactly once per constructed terminal signal
(`cntFailure = signals`), at most one signal is ever produced, none on
success, and exactly one whenever the propagated outcome is
`MaxRetriesException`, `TimeoutExceeded` or `DeadlineExceeded`; the
successful-retry callback fires exactly once when success follows at least
one retry, and never otherwise. -/
theorem callback_discipline (cfg : RetryConfig) (op : ℕ → OpResult)
    (rngs : ℕ → ℤ → ℤ → ℤ) (fuel : ℕ) (start : ℤ) (out : Outcome) (st' : WState)
    (hop : ∀ k e d, op k = OpResult.raise e d → ∃ cc, e = PyExc.userError cc)
    (hrun : wrapper cfg op rngs fuel start = some (out, st')) :
    st'.cntRetry = (if cfg.retry_callback then st'.retries else 0)
    ∧ st'.cntFailure = (if cfg.failure_callback then st'.signals else 0)
    ∧ st'.signals ≤ 1
    ∧ (∀ v, out = Outcome.success v →
        st'.signals = 0
        ∧ st'.cntSuccessAfterRetry
            = (if 0 < st'.retries ∧ cfg.successful_retry_callback then 1 else 0))
    ∧ (∀ e, out = Outcome.raised e → st'.cntSuccessAfterRetry = 0)
    ∧ (∀ e, out = Outcome.raised e →
        (e = PyExc.timeoutExc ∨ e = PyExc.deadlineExc ∨ ∃ m, e = PyExc.maxRetriesExc m) →
        st'.signals = 1) :=
  run_counts cfg op hop fuel rngs (initState cfg.backoff start) out st' hrun
    (by simp [initState]) rfl rfl rfl (by simp [initState])

/-- Witness for C10: the all-callbacks configuration run to max-retries
exhaustion — one retry, one retry-callback call, one constructed
`MaxRetriesException`, one failure-callback call. -/
theorem callback_discipline_witness :
    wrapper cfgCb opAlwaysFail1s rngsLo 2 0
        = some (Outcome.raised (PyExc.maxRetriesExc 1), stCbFinal)
    ∧ stCbFinal.cntRetry = (if cfgCb.retry_callback then stCbFinal.retries else 0)
    ∧ stCbFinal.cntFailure = (if cfgCb.failure_callback then stCbFinal.signals else 0)
    ∧ stCbFinal.signals = 1 := by
  have h : wrapper cfgCb opAlwaysFail1s rngsLo 2 0
      = some (Outcome.raised (PyExc.maxRetriesExc 1), stCbFinal) := rfl
  have hc := callback_discipline cfgCb opAlwaysFail1s rngsLo 2 0 _ _
    (fun k e d hk => ⟨0, by injection hk with h1 h2; exact h1.symm⟩) h
  exact ⟨h, hc.1, hc.2.1, hc.2.2.2.2.2 _ rfl (Or.inr (Or.inr ⟨1, rfl⟩))⟩

end RetryReloaded
